import Mathlib

/- Shallow embedding of `dbt_to_snowflake_converter.py`, the dbt semantic-model
to Snowflake semantic-view converter.  YAML scalar values are modelled as
strings and an absent optional key as `none`; text is modelled as `List Char`
under `String`, with Python case conversion, whitespace and line breaks
modelled for ASCII text (`\n` line breaks only). -/

/-- Python `str.lower`, modelled for ASCII characters. -/
def strLower (s : String) : String := String.mk (s.data.map Char.toLower)

/-- Python `str.upper`, modelled for ASCII characters. -/
def strUpper (s : String) : String := String.mk (s.data.map Char.toUpper)

/-- Python `str.startswith`. -/
def strStarts (s t : String) : Bool := t.data.isPrefixOf s.data

/-- Python `str.endswith`. -/
def strEnds (s t : String) : Bool := t.data.isSuffixOf s.data

/-- Python whitespace class `\s`, modelled for ASCII characters. -/
def isWsChar (c : Char) : Bool :=
  c = ' ' || c = '\t' || c = '\n' || c = '\r' || c = '\x0b' || c = '\x0c'

/-- Quote characters recognised by the converter (single and double quote). -/
def isQuoteChar (c : Char) : Bool := c = '\x27' || c = '"'

/-- Python `needle in haystack` substring test. -/
def hasSubstr (needle : List Char) : List Char → Bool
  | [] => needle.isPrefixOf []
  | c :: cs => needle.isPrefixOf (c :: cs) || hasSubstr needle cs

/-- Python `str.replace`: replace every non-overlapping occurrence of `pat`
(taken left to right) by `repl`.  The converter only uses non-empty patterns. -/
def replaceAll (pat repl : List Char) : List Char → List Char
  | [] => []
  | c :: cs =>
    if h : pat ≠ [] ∧ pat.isPrefixOf (c :: cs) then
      repl ++ replaceAll pat repl (List.drop pat.length (c :: cs))
    else
      c :: replaceAll pat repl cs
termination_by l => l.length
decreasing_by
  · simp only [List.length_drop, List.length_cons]
    have hp : 0 < pat.length := List.length_pos.mpr h.1
    omega
  · simp

/-- Split a character list at each `\n` (Python `str.split("\n")`). -/
def splitNl : List Char → List (List Char)
  | [] => [[]]
  | c :: cs =>
    if c = '\n' then [] :: splitNl cs
    else
      match splitNl cs with
      | [] => [[c]]
      | l :: ls => (c :: l) :: ls

/-- Jinja2 `indent(4, True)` filter: prefix every line with four spaces,
including the first, leaving blank lines alone. -/
def indent4 (s : String) : String :=
  match splitNl s.data with
  | [] => ""
  | l :: ls =>
    String.mk ("    ".data ++ l ++
      (ls.map (fun line => '\n' :: (if line = [] then line else "    ".data ++ line))).flatten)

/-- Strip a case-insensitive keyword from the front of a character list,
returning the remainder on success (the keyword is given in lower case). -/
def stripCI : List Char → List Char → Option (List Char)
  | [], cs => some cs
  | _ :: _, [] => none
  | k :: ks, c :: cs => if c.toLower = k then stripCI ks cs else none

/-- Match Python's `\s+kw\s+` (or `\s+kw\s*` when `reqTrail` is false,
case-insensitively) at the head of the list, returning the remainder after
the greedy match.  A successful `stripCI` consumes exactly `kw.length`
characters, so the remainder is computed with `List.drop`. -/
def matchKw (kw : List Char) (reqTrail : Bool) (cs : List Char) : Option (List Char) :=
  if cs.takeWhile isWsChar = [] then none
  else
    let r1 := cs.dropWhile isWsChar
    if (stripCI kw r1).isSome then
      let r2 := r1.drop kw.length
      if reqTrail && r2.takeWhile isWsChar = [] then none
      else some (r2.dropWhile isWsChar)
    else none

/-- Python `re.sub` for the patterns `\s+kw\s+` / `\s+kw\s*` used by
`_wrap_long_expression`: replace every non-overlapping match (leftmost first)
by `repl`. -/
def subKw (kw repl : List Char) (reqTrail : Bool) : List Char → List Char
  | [] => []
  | c :: cs =>
    match h : matchKw kw reqTrail (c :: cs) with
    | some rest => repl ++ subKw kw repl reqTrail rest
    | none => c :: subKw kw repl reqTrail cs
termination_by l => l.length
decreasing_by
  · unfold matchKw at h
    by_cases hws : (c :: cs).takeWhile isWsChar = []
    · simp [hws] at h
    · simp only [hws, if_false] at h
      have hc : isWsChar c = true := by
        by_contra hc
        simp [List.takeWhile_cons, hc] at hws
      by_cases hst : (stripCI kw ((c :: cs).dropWhile isWsChar)).isSome
      · simp only [hst, if_true] at h
        have e1 : (c :: cs).dropWhile isWsChar = cs.dropWhile isWsChar := by
          simp [List.dropWhile_cons, hc]
        have l1 : (cs.dropWhile isWsChar).length ≤ cs.length :=
          (List.dropWhile_sublist _).length_le
        have l2 : (((c :: cs).dropWhile isWsChar).drop kw.length).length ≤ cs.length := by
          rw [e1, List.length_drop]
          omega
        have l3 : ((((c :: cs).dropWhile isWsChar).drop kw.length).dropWhile isWsChar).length ≤
            (((c :: cs).dropWhile isWsChar).drop kw.length).length :=
          (List.dropWhile_sublist _).length_le
        split at h
        · cases h
        · have h2 := Option.some.inj h
          subst h2
          simp only [List.length_cons]
          omega
      · simp [hst] at h
  · simp

/-- A fuel-driven twin of `subKw`, structurally recursive so that the kernel
can evaluate it on concrete input; it agrees with `subKw` whenever the fuel
covers the list length. -/
def subKwE (kw repl : List Char) (b : Bool) : Nat → List Char → List Char
  | _, [] => []
  | 0, l => l
  | fuel + 1, c :: cs =>
    match matchKw kw b (c :: cs) with
    | some rest => repl ++ subKwE kw repl b fuel rest
    | none => c :: subKwE kw repl b fuel cs

/-- Strip surrounding single or double quotes (Python `str.strip("'\"")`). -/
def stripQuotes (s : String) : String :=
  String.mk (((s.data.dropWhile isQuoteChar).reverse.dropWhile isQuoteChar).reverse)

/-- A `type_params` mapping on a dimension; carries `time_granularity`. -/
structure TypeParams where
  time_granularity : Option String
deriving Repr, DecidableEq

/-- A dbt dimension record. -/
structure Dimension where
  name : String
  expr : Option String
  description : Option String
  type : Option String
  type_params : Option TypeParams
deriving Repr, DecidableEq

/-- A dbt entity record (key or relationship column). -/
structure Entity where
  name : String
  type : Option String
  expr : Option String
deriving Repr, DecidableEq

/-- A dbt measure record. -/
structure Measure where
  name : String
  expr : Option String
  agg : Option String
  description : Option String
deriving Repr, DecidableEq

/-- A dbt semantic-model record. -/
structure Model where
  name : Option String
  description : Option String
  model : Option String
  entities : List Entity
  dimensions : List Dimension
  measures : List Measure
deriving Repr, DecidableEq

/-- A parsed YAML document: the top-level mapping, of which only the
`semantic_models` key is consulted. -/
structure Doc where
  semantic_models : Option (List Model)
deriving Repr, DecidableEq

/-- The converter's `aggregation_mapping` dictionary. -/
def aggregation_mapping : List (String × String) :=
  [("sum", "SUM"),
   ("avg", "AVG"),
   ("average", "AVG"),
   ("count", "COUNT"),
   ("count_distinct", "COUNT"),
   ("min", "MIN"),
   ("max", "MAX"),
   ("median", "MEDIAN"),
   ("percentile", "PERCENTILE_CONT"),
   ("sum_boolean", "SUM")]

/-- The converter's `time_granularity_mapping` dictionary. -/
def time_granularity_mapping : List (String × String) :=
  [("day", "DAY"),
   ("week", "WEEK"),
   ("month", "MONTH"),
   ("quarter", "QUARTER"),
   ("year", "YEAR"),
   ("hour", "HOUR"),
   ("minute", "MINUTE")]

/-- The group captured by the first match of `re.search(r"ref\(['\"]([^'\"]+)['\"]", s)`
when matching is attempted at the head of the list: literal `ref(`, a quote,
a non-empty greedy run of non-quote characters, then a quote. -/
def refMatchAt : List Char → Option (List Char)
  | 'r' :: 'e' :: 'f' :: '(' :: q :: rest =>
    if isQuoteChar q then
      let run := rest.takeWhile (fun c => !isQuoteChar c)
      let after := rest.dropWhile (fun c => !isQuoteChar c)
      if run ≠ [] && after ≠ [] then some run else none
    else none
  | _ => none

/-- Leftmost match of the `ref(...)` pattern anywhere in the list
(`re.search` semantics). -/
def refSearch : List Char → Option (List Char)
  | [] => none
  | c :: cs =>
    match refMatchAt (c :: cs) with
    | some g => some g
    | none => refSearch cs

/-- The converter's `_extract_table_name`: extract a table name from a dbt
model reference such as `ref('orders')`. -/
def _extract_table_name (model_ref : String) : String :=
  if model_ref = "" then "unknown_table"
  else if strStarts model_ref "ref(" then
    match refSearch model_ref.data with
    | some g => String.mk g
    | none => stripQuotes model_ref
  else stripQuotes model_ref

/-- The primary-key scan of `_generate_tables_section`: the first entity of
type `primary` supplies `expr` (default `name`), recorded before the falsiness
check. -/
def findPrimary : List Entity → Option String
  | [] => none
  | e :: es => if e.type = some "primary" then some (e.expr.getD e.name) else findPrimary es

/-- The fallback key of `_generate_tables_section`: the first entity's
`expr`/`name`, or the literal `id` for an empty entity list. -/
def fallbackKey : List Entity → String
  | [] => "id"
  | e :: _ => e.expr.getD e.name

/-- The complete primary-key selection of `_generate_tables_section`,
including the Python `if not primary_key` falsiness check that also rejects
an empty string found on a primary entity. -/
def primaryKeyOf (entities : List Entity) : String :=
  match findPrimary entities with
  | some k => if k = "" then fallbackKey entities else k
  | none => fallbackKey entities

/-- The converter's `_generate_tables_section`. -/
def _generate_tables_section (semantic_model_name table_name : String)
    (entities : List Entity) : String :=
  semantic_model_name ++ " AS " ++ table_name ++ "\n  PRIMARY KEY (" ++ primaryKeyOf entities ++ ")"

/-- One relationship entry of `_generate_relationships_section` for a foreign
entity: the target table is the entity name with the substrings `_id` and then
`id` removed, defaulting to `unknown` when that leaves nothing. -/
def relDef (e : Entity) : String :=
  let expr := e.expr.getD e.name
  let target0 := String.mk (replaceAll "id".data [] (replaceAll "_id".data [] e.name.data))
  let target_table := if target0 = "" then "unknown" else target0
  "to_" ++ e.name ++ " AS\n  semantic_model (" ++ expr ++ ") REFERENCES " ++ target_table

/-- The accumulation loop of `_generate_relationships_section`. -/
def relsList : List Entity → List String
  | [] => []
  | e :: es => if e.type = some "foreign" then relDef e :: relsList es else relsList es

/-- The converter's `_generate_relationships_section`. -/
def _generate_relationships_section (entities : List Entity) : String :=
  String.intercalate ",\n" (relsList entities)

/-- The fact-inclusion test of `_generate_facts_section`. -/
def factKeep (m : Measure) : Bool :=
  let expr_str := m.expr.getD m.name
  let agg := m.agg.getD "sum"
  expr_str ≠ "1" &&
    !(strLower agg = "count" || strLower agg = "count_distinct") &&
    !(strStarts (strUpper expr_str) "COUNT")

/-- One fact entry of `_generate_facts_section`. -/
def factDef (table_alias : String) (m : Measure) : String :=
  let expr := m.expr.getD m.name
  let description := m.description.getD ""
  let base := table_alias ++ "." ++ m.name ++ " AS " ++ expr
  if description ≠ "" then base ++ "\n  COMMENT \x27" ++ description ++ "\x27" else base

/-- The accumulation loop of `_generate_facts_section`. -/
def factsList (table_alias : String) : List Measure → List String
  | [] => []
  | m :: ms =>
    if factKeep m then factDef table_alias m :: factsList table_alias ms
    else factsList table_alias ms

/-- The converter's `_generate_facts_section`. -/
def _generate_facts_section (table_alias : String) (measures : List Measure) : String :=
  String.intercalate ",\n" (factsList table_alias measures)

/-- The converter's `_wrap_long_expression`: CASE expressions get `WHEN`,
`ELSE` and `END` moved to new indented lines (`THEN` is upper-cased in place
with single spaces around it); anything else gets one level of indentation. -/
def _wrap_long_expression (expr : String) : String :=
  if hasSubstr "case ".data (strLower expr).data then
    let e1 := subKw "when".data "\n      WHEN ".data true expr.data
    let e2 := subKw "then".data " THEN ".data true e1
    let e3 := subKw "else".data "\n      ELSE ".data true e2
    let e4 := subKw "end".data "\n      END".data false e3
    "    " ++ String.mk e4
  else "    " ++ expr

/-- The expression computed for a dimension by `_generate_dimensions_section`:
a time dimension whose `expr` still equals its `name` (and whose granularity
string is truthy) becomes a `DATE_TRUNC` over the mapped granularity. -/
def dimensionExpr (d : Dimension) : String :=
  let expr := d.expr.getD d.name
  let dim_type := d.type.getD "categorical"
  if dim_type = "time" then
    let type_params := d.type_params.getD ⟨none⟩
    let granularity := type_params.time_granularity.getD "day"
    if expr = d.name && granularity ≠ "" then
      let mapped := (time_granularity_mapping.lookup granularity).getD (strUpper granularity)
      "DATE_TRUNC(\x27" ++ mapped ++ "\x27, " ++ d.name ++ ")"
    else expr
  else expr

/-- One dimension entry of `_generate_dimensions_section`, including the
long-expression formatting and the optional comment line. -/
def dimensionDef (table_alias : String) (d : Dimension) : String :=
  let expr := dimensionExpr d
  let description := d.description.getD ""
  let dim_definition :=
    if 60 < expr.length then
      table_alias ++ "." ++ d.name ++ " AS (\n" ++ _wrap_long_expression expr ++ "\n)"
    else table_alias ++ "." ++ d.name ++ " AS " ++ expr
  if description ≠ "" then dim_definition ++ "\n  COMMENT \x27" ++ description ++ "\x27"
  else dim_definition

/-- The converter's `_generate_dimensions_section`. -/
def _generate_dimensions_section (table_alias : String) (dimensions : List Dimension) : String :=
  String.intercalate ",\n" (dimensions.map (dimensionDef table_alias))

/-- The metric expression computed by `_generate_metrics_section` for one
measure. -/
def metricExpr (m : Measure) : String :=
  let agg := m.agg.getD "sum"
  let expr := m.expr.getD m.name
  let snowflake_agg := (aggregation_mapping.lookup (strLower agg)).getD (strUpper agg)
  if strLower agg = "count_distinct" then "COUNT(DISTINCT " ++ expr ++ ")"
  else if expr = "1" && (strLower agg = "sum" || strLower agg = "count") then "COUNT(*)"
  else snowflake_agg ++ "(" ++ expr ++ ")"

/-- The converter's `_generate_metric_name`. -/
def _generate_metric_name (measure_name agg : String) : String :=
  let agg_lower := strLower agg
  if agg_lower = "sum" then
    if strEnds measure_name "_count" || measure_name = "count" then "total_count"
    else if strEnds measure_name "_total" || strEnds measure_name "_amount" ||
        strEnds measure_name "_value" then measure_name
    else "total_" ++ measure_name
  else if agg_lower = "avg" || agg_lower = "average" then "avg_" ++ measure_name
  else if agg_lower = "count" then
    if strEnds measure_name "_count" then measure_name else measure_name ++ "_count"
  else if agg_lower = "count_distinct" then
    if strStarts measure_name "unique_" then measure_name else "unique_" ++ measure_name
  else if agg_lower = "min" || agg_lower = "max" then agg_lower ++ "_" ++ measure_name
  else agg_lower ++ "_" ++ measure_name

/-- One metric entry of `_generate_metrics_section`. -/
def metricDef (table_alias : String) (m : Measure) : String :=
  let agg := m.agg.getD "sum"
  let description := m.description.getD ""
  let metric_name := _generate_metric_name m.name agg
  let base := table_alias ++ "." ++ metric_name ++ " AS " ++ metricExpr m
  if description ≠ "" then base ++ "\n  COMMENT \x27" ++ description ++ "\x27" else base

/-- The converter's `_generate_metrics_section`. -/
def _generate_metrics_section (table_alias : String) (measures : List Measure) : String :=
  String.intercalate ",\n" (measures.map (metricDef table_alias))

/-- The Jinja2 template of `_convert_single_model`, rendered: optional
clauses appear only when their section text is non-empty, section bodies are
indented by four spaces, and single quotes in the model-level description are
escaped by doubling. -/
def renderTemplate (name description tables_sql relationships_sql facts_sql
    dimensions_sql metrics_sql : String) : String :=
  "CREATE SEMANTIC VIEW " ++ name ++
    (if description ≠ "" then
      "\n  COMMENT = \x27" ++
        String.mk (replaceAll "\x27".data "\x27\x27".data description.data) ++ "\x27"
     else "") ++
    "\n  TABLES (\n" ++ indent4 tables_sql ++ "\n  )" ++
    (if relationships_sql ≠ "" then
      "\n  RELATIONSHIPS (\n" ++ indent4 relationships_sql ++ "\n  )" else "") ++
    (if facts_sql ≠ "" then "\n  FACTS (\n" ++ indent4 facts_sql ++ "\n  )" else "") ++
    (if dimensions_sql ≠ "" then
      "\n  DIMENSIONS (\n" ++ indent4 dimensions_sql ++ "\n  )" else "") ++
    (if metrics_sql ≠ "" then "\n  METRICS (\n" ++ indent4 metrics_sql ++ "\n  )" else "") ++
    ";"

/-- The converter's `_convert_single_model`: fails when the model has no
truthy `name`, otherwise renders the template over the five section builders. -/
def _convert_single_model (m : Model) : Except String String :=
  match m.name with
  | none => .error "Semantic model must have a name"
  | some nm =>
    if nm = "" then .error "Semantic model must have a name"
    else
      let table_name := _extract_table_name (m.model.getD "")
      .ok (renderTemplate nm (m.description.getD "")
        (_generate_tables_section nm table_name m.entities)
        (_generate_relationships_section m.entities)
        (_generate_facts_section nm m.measures)
        (_generate_dimensions_section nm m.dimensions)
        (_generate_metrics_section nm m.measures))

/-- The per-model loop of `convert_yaml_content`: convert each model in
order, aborting on the first failure. -/
def convertModels : List Model → Except String (List String)
  | [] => .ok []
  | m :: ms =>
    match _convert_single_model m with
    | .error e => .error e
    | .ok s =>
      match convertModels ms with
      | .error e => .error e
      | .ok rest => .ok (s :: rest)

/-- The converter's `convert_yaml_content`. -/
def convert_yaml_content (data : Doc) : Except String String :=
  match data.semantic_models with
  | none => .error "No semantic_models found in YAML"
  | some semantic_models =>
    if semantic_models = [] then .error "semantic_models list is empty"
    else
      match convertModels semantic_models with
      | .error e => .error e
      | .ok outs => .ok (String.intercalate "\n\n" outs)

/-- Python's falsiness test `if not name` on a model's `name` value: true for
an absent key or an empty string. -/
def missingName (m : Model) : Bool :=
  match m.name with
  | none => true
  | some s => s = ""

/-- The dimension granularity as read by `_generate_dimensions_section`:
`type_params` defaults to an empty mapping and `time_granularity` to `day`. -/
def granularityOf (d : Dimension) : String :=
  ((d.type_params.getD ⟨none⟩).time_granularity).getD "day"

/-- Modelled from the spec (§4.7 / claim C3): the aggregation mapping table
written out as the claim states it, with unknown keywords passed through
upper-cased verbatim. -/
def aggMappedSpec (agg : String) : String :=
  if strLower agg = "sum" then "SUM"
  else if strLower agg = "avg" then "AVG"
  else if strLower agg = "average" then "AVG"
  else if strLower agg = "count" then "COUNT"
  else if strLower agg = "count_distinct" then "COUNT"
  else if strLower agg = "min" then "MIN"
  else if strLower agg = "max" then "MAX"
  else if strLower agg = "median" then "MEDIAN"
  else if strLower agg = "percentile" then "PERCENTILE_CONT"
  else if strLower agg = "sum_boolean" then "SUM"
  else strUpper agg

/-- The metric-expression rules exactly as claim C3 states them, in priority
order (a), (b), (c). -/
def metricExprSpec (expr agg : String) : String :=
  if strLower agg = "count_distinct" then "COUNT(DISTINCT " ++ expr ++ ")"
  else if expr = "1" && (strLower agg = "sum" || strLower agg = "count") then "COUNT(*)"
  else aggMappedSpec agg ++ "(" ++ expr ++ ")"

/-- The metric-name derivation rules exactly as claim C4 states them
(`min`/`max` fall under the generic lower-cased-aggregation rule). -/
def metricNameSpec (name agg : String) : String :=
  if strLower agg = "sum" then
    if strEnds name "_count" || name = "count" then "total_count"
    else if strEnds name "_total" || strEnds name "_amount" || strEnds name "_value" then name
    else "total_" ++ name
  else if strLower agg = "avg" || strLower agg = "average" then "avg_" ++ name
  else if strLower agg = "count" then
    if strEnds name "_count" then name else name ++ "_count"
  else if strLower agg = "count_distinct" then
    if strStarts name "unique_" then name else "unique_" ++ name
  else strLower agg ++ "_" ++ name

/-- The fact-inclusion rule exactly as claim C5 states it: all three
conditions must hold. -/
def factKeepSpec (m : Measure) : Bool :=
  let e := m.expr.getD m.name
  let a := m.agg.getD "sum"
  e ≠ "1" && strLower a ≠ "count" && strLower a ≠ "count_distinct" &&
    !(strStarts (strUpper e) "COUNT")

/-- The fact rendering as claim C5 states it: `<alias>.<name> AS <expr>` with
an optional COMMENT line in which the description is spliced verbatim. -/
def factDefSpec (table_alias : String) (m : Measure) : String :=
  let e := m.expr.getD m.name
  let d := m.description.getD ""
  if d ≠ "" then table_alias ++ "." ++ m.name ++ " AS " ++ e ++ "\n  COMMENT \x27" ++ d ++ "\x27"
  else table_alias ++ "." ++ m.name ++ " AS " ++ e

/-- Modelled from the spec (§4.6 / claim C6): the time-granularity table
written out as the claim states it, unknown granularities upper-cased
verbatim. -/
def granularityMappedSpec (g : String) : String :=
  if g = "day" then "DAY"
  else if g = "week" then "WEEK"
  else if g = "month" then "MONTH"
  else if g = "quarter" then "QUARTER"
  else if g = "year" then "YEAR"
  else if g = "hour" then "HOUR"
  else if g = "minute" then "MINUTE"
  else strUpper g

/-- The primary-key selection as claim C7 states it, amended only by the
empty-value fallthrough that the Python falsiness check introduces. -/
def primaryKeySpec (entities : List Entity) : String :=
  let fb :=
    match entities with
    | [] => "id"
    | e :: _ => e.expr.getD e.name
  match entities.find? (fun e => e.type == some "primary") with
  | some e => if e.expr.getD e.name = "" then fb else e.expr.getD e.name
  | none => fb

/-- Foreign-entity test of claim C8. -/
def isForeignSpec (e : Entity) : Bool := e.type == some "foreign"

/-- The target-table heuristic as claim C8 states it: remove the substrings
`_id` and then `id` from the entity name; `unknown` when nothing remains. -/
def relTargetSpec (nm : String) : String :=
  let t := String.mk (replaceAll "id".data [] (replaceAll "_id".data [] nm.data))
  if t = "" then "unknown" else t

/-- One relationship entry as claim C8 states it: named `to_<entity_name>`
and referencing the lexically derived target table. -/
def relDefSpec (e : Entity) : String :=
  "to_" ++ e.name ++ " AS\n  semantic_model (" ++ e.expr.getD e.name ++ ") REFERENCES " ++
    relTargetSpec e.name

/-- The `ref('identifier')` / `ref("identifier")` pattern as claim C9 states
it: a `ref(` prefix, one quote character, a non-empty quote-free identifier,
the same quote character and a closing parenthesis. -/
def matchesRefPattern (s : String) : Bool :=
  match s.data with
  | 'r' :: 'e' :: 'f' :: '(' :: q :: rest =>
    isQuoteChar q &&
      (match rest.reverse with
       | ')' :: q2 :: bodyRev => q2 = q && bodyRev ≠ [] && bodyRev.all (fun c => !isQuoteChar c)
       | _ => false)
  | _ => false

/-- A minimal model (only the required `name`) used to exercise the
document-level converter on concrete input. -/
def modelA : Model := ⟨some "a", none, none, [], [], []⟩

/-- A second minimal model used to exercise multi-model conversion. -/
def modelB : Model := ⟨some "b", none, none, [], [], []⟩

/-- The statement `_convert_single_model` produces for `modelA`. -/
def stmtA : String :=
  "CREATE SEMANTIC VIEW a\n  TABLES (\n    a AS unknown_table\n      PRIMARY KEY (id)\n  );"

/-- The statement `_convert_single_model` produces for `modelB`. -/
def stmtB : String :=
  "CREATE SEMANTIC VIEW b\n  TABLES (\n    b AS unknown_table\n      PRIMARY KEY (id)\n  );"

/-- A 76-character SQL CASE expression used to exhibit the `THEN` formatting. -/
def longCase : String :=
  "case when aaaaaaaaaaaaaaaaaaaaaaaaaaaaaaaaaaaaaaaaaaaaaaaa then 1 else 2 end"

/-- A family of SQL CASE expressions of length `61 + m` (all above the
60-character wrapping threshold): `case when a^(33+m) then 1 else 2 end`. -/
def caseExprFam (m : Nat) : String :=
  String.mk ("case when aaaaaaaaaaaaaaaaaaaaaaaaaaaaaaaaa".data ++ List.replicate m 'a' ++
    " then 1 else 2 end".data)

/-- Unfolding of the aggregation dictionary lookup into an equation chain. -/
theorem lookup_aggregation_mapping (a : String) :
    (aggregation_mapping.lookup a) =
      (if a = "sum" then some "SUM" else if a = "avg" then some "AVG"
       else if a = "average" then some "AVG"
       else if a = "count" then some "COUNT" else if a = "count_distinct" then some "COUNT"
       else if a = "min" then some "MIN" else if a = "max" then some "MAX"
       else if a = "median" then some "MEDIAN" else if a = "percentile" then some "PERCENTILE_CONT"
       else if a = "sum_boolean" then some "SUM" else none) := by
  simp only [aggregation_mapping, List.lookup]
  split_ifs with h1 h2 h3 h4 h5 h6 h7 h8 h9 h10
  · subst h1; rfl
  · subst h2; rfl
  · subst h3; rfl
  · subst h4; rfl
  · subst h5; rfl
  · subst h6; rfl
  · subst h7; rfl
  · subst h8; rfl
  · subst h9; rfl
  · subst h10; rfl
  · simp [beq_eq_false_iff_ne.mpr h1, beq_eq_false_iff_ne.mpr h2, beq_eq_false_iff_ne.mpr h3,
      beq_eq_false_iff_ne.mpr h4, beq_eq_false_iff_ne.mpr h5, beq_eq_false_iff_ne.mpr h6,
      beq_eq_false_iff_ne.mpr h7, beq_eq_false_iff_ne.mpr h8, beq_eq_false_iff_ne.mpr h9,
      beq_eq_false_iff_ne.mpr h10]

/-- Unfolding of the time-granularity dictionary lookup into an equation
chain. -/
theorem lookup_time_granularity_mapping (g : String) :
    (time_granularity_mapping.lookup g) =
      (if g = "day" then some "DAY" else if g = "week" then some "WEEK"
       else if g = "month" then some "MONTH" else if g = "quarter" then some "QUARTER"
       else if g = "year" then some "YEAR" else if g = "hour" then some "HOUR"
       else if g = "minute" then some "MINUTE" else none) := by
  simp only [time_granularity_mapping, List.lookup]
  split_ifs with h1 h2 h3 h4 h5 h6 h7
  · subst h1; rfl
  · subst h2; rfl
  · subst h3; rfl
  · subst h4; rfl
  · subst h5; rfl
  · subst h6; rfl
  · subst h7; rfl
  · simp [beq_eq_false_iff_ne.mpr h1, beq_eq_false_iff_ne.mpr h2, beq_eq_false_iff_ne.mpr h3,
      beq_eq_false_iff_ne.mpr h4, beq_eq_false_iff_ne.mpr h5, beq_eq_false_iff_ne.mpr h6,
      beq_eq_false_iff_ne.mpr h7]

set_option maxHeartbeats 1600000 in
/-- The dictionary lookup with upper-case default agrees with the spec's
mapping table. -/
theorem agg_mapped_eq (a : String) :
    (aggregation_mapping.lookup (strLower a)).getD (strUpper a) = aggMappedSpec a := by
  rw [lookup_aggregation_mapping]
  unfold aggMappedSpec
  split_ifs <;> rfl

/-- C3: for every measure (expr defaulting to name, agg defaulting to sum)
the METRICS-section expression follows the priority rules: (a) count_distinct
gives COUNT(DISTINCT expr); (b) expr "1" with agg sum or count gives
COUNT(*); (c) otherwise the mapped aggregation (fixed table, unknown
keywords upper-cased verbatim) is applied to the expression. -/
theorem metricExpr_follows_spec (m : Measure) :
    metricExpr m = metricExprSpec (m.expr.getD m.name) (m.agg.getD "sum") := by
  simp only [metricExpr, metricExprSpec]
  rw [agg_mapped_eq]

set_option maxHeartbeats 1600000 in
/-- C4: the metric name is a pure function of the measure name and the
aggregation keyword, case-insensitive in the aggregation, and follows the
stated derivation rules (sum with count-like or already-descriptive names,
avg/average, count, count_distinct, and the generic lower-cased rule that
also covers min/max). -/
theorem metric_name_follows_spec (n a b : String) (h : strLower a = strLower b) :
    _generate_metric_name n a = _generate_metric_name n b ∧
    _generate_metric_name n a = metricNameSpec n a := by
  constructor
  · simp only [_generate_metric_name, h]
  · simp only [_generate_metric_name, metricNameSpec]
    split_ifs <;> rfl

/-- Witness for C4 at the spec's own examples, with a mixed-case aggregation
keyword. -/
theorem metric_name_follows_spec_witness :
    strLower "SUM" = strLower "sum" ∧
    (_generate_metric_name "amount" "SUM" = _generate_metric_name "amount" "sum" ∧
     _generate_metric_name "amount" "SUM" = metricNameSpec "amount" "SUM") :=
  ⟨by decide, metric_name_follows_spec "amount" "SUM" "sum" (by decide)⟩

/-- The Python fact-inclusion test agrees with the spec's three-condition
rule. -/
theorem factKeep_eq_spec (m : Measure) : factKeep m = factKeepSpec m := by
  simp only [factKeep, factKeepSpec]
  by_cases h1 : m.expr.getD m.name = "1" <;>
    by_cases h2 : strLower (m.agg.getD "sum") = "count" <;>
      by_cases h3 : strLower (m.agg.getD "sum") = "count_distinct" <;>
        simp [h1, h2, h3]

/-- The Python fact rendering agrees with the spec's rendering. -/
theorem factDef_eq_spec (t : String) (m : Measure) : factDef t m = factDefSpec t m := rfl

/-- The fact loop is the filter-then-render of the spec. -/
theorem factsList_eq_spec (t : String) (ms : List Measure) :
    factsList t ms = (ms.filter factKeepSpec).map (factDefSpec t) := by
  induction ms with
  | nil => rfl
  | cons m ms ih =>
    simp only [factsList, List.filter_cons, ← factKeep_eq_spec]
    cases h : factKeep m <;> simp [h, ih, factDef_eq_spec]

/-- C5: a measure appears in the FACTS section exactly when its stringified
expression is not the literal "1", its lower-cased aggregation is neither
count nor count_distinct, and its upper-cased expression does not start with
COUNT; each kept fact renders as alias.name AS expr with an optional verbatim
COMMENT line. -/
theorem facts_section_follows_spec (t : String) (ms : List Measure) :
    _generate_facts_section t ms =
      String.intercalate ",\n" ((ms.filter factKeepSpec).map (factDefSpec t)) ∧
    ∀ m : Measure, factKeepSpec m = true ↔
      (m.expr.getD m.name ≠ "1" ∧ strLower (m.agg.getD "sum") ≠ "count" ∧
       strLower (m.agg.getD "sum") ≠ "count_distinct" ∧
       strStarts (strUpper (m.expr.getD m.name)) "COUNT" = false) := by
  constructor
  · simp only [_generate_facts_section, factsList_eq_spec]
  · intro m
    simp [factKeepSpec, and_assoc]

/-- The per-model loop succeeds with exactly one statement per model, in
input order. -/
theorem convertModels_spec (ms : List Model) (bs : List String)
    (h : convertModels ms = Except.ok bs) :
    bs.length = ms.length ∧
    ∀ i : Nat, ∀ hi : i < ms.length, ∀ hb : i < bs.length,
      _convert_single_model ms[i] = Except.ok bs[i] := by
  induction ms generalizing bs with
  | nil =>
    simp only [convertModels] at h
    injection h with h1
    subst h1
    exact ⟨rfl, by intro i hi; simp at hi⟩
  | cons m ms ih =>
    simp only [convertModels] at h
    cases h1 : _convert_single_model m with
    | error e => rw [h1] at h; cases h
    | ok s =>
      rw [h1] at h
      cases h2 : convertModels ms with
      | error e => rw [h2] at h; cases h
      | ok rest =>
        rw [h2] at h
        injection h with h3
        subst h3
        obtain ⟨hl, hg⟩ := ih rest h2
        refine ⟨by simp [hl], ?_⟩
        intro i hi hb
        cases i with
        | zero => simpa using h1
        | succ j =>
          have hj : j < ms.length := by simpa using hi
          have hj2 : j < rest.length := by simpa using hb
          simpa using hg j hj hj2

/-- C1: on a document whose semantic_models key holds a non-empty list on
which every model converts, the result is exactly the per-model statements
joined by one blank line, one per model, in input order. -/
theorem convert_yaml_content_joins (ms : List Model) (bs : List String)
    (h : convertModels ms = Except.ok bs) (hne : ms ≠ []) :
    convert_yaml_content ⟨some ms⟩ = Except.ok (String.intercalate "\n\n" bs) ∧
    bs.length = ms.length ∧
    ∀ i : Nat, ∀ hi : i < ms.length, ∀ hb : i < bs.length,
      _convert_single_model ms[i] = Except.ok bs[i] := by
  obtain ⟨hl, hg⟩ := convertModels_spec ms bs h
  refine ⟨?_, hl, hg⟩
  simp only [convert_yaml_content]
  rw [if_neg hne, h]

/-- Witness for C1 at a concrete two-model document. -/
theorem convert_yaml_content_joins_witness :
    convertModels [modelA, modelB] = Except.ok [stmtA, stmtB] ∧
    ([modelA, modelB] : List Model) ≠ [] ∧
    convert_yaml_content ⟨some [modelA, modelB]⟩ =
      Except.ok (String.intercalate "\n\n" [stmtA, stmtB]) :=
  ⟨rfl, by decide,
    (convert_yaml_content_joins [modelA, modelB] [stmtA, stmtB] rfl (by decide)).1⟩

/-- A single model conversion fails exactly when the model lacks a truthy
name. -/
theorem single_model_error_iff (m : Model) :
    (∃ e, _convert_single_model m = Except.error e) ↔ missingName m = true := by
  unfold _convert_single_model missingName
  cases hn : m.name with
  | none => simp
  | some s => by_cases h : s = "" <;> simp [h]

/-- The model loop fails exactly when some model lacks a truthy name. -/
theorem convertModels_error_iff (ms : List Model) :
    (∃ e, convertModels ms = Except.error e) ↔ ∃ m ∈ ms, missingName m = true := by
  induction ms with
  | nil => simp [convertModels]
  | cons m ms ih =>
    simp only [convertModels]
    cases h1 : _convert_single_model m with
    | error e =>
      have hm : missingName m = true := (single_model_error_iff m).mp ⟨e, h1⟩
      constructor
      · intro _; exact ⟨m, by simp, hm⟩
      · intro _; exact ⟨e, rfl⟩
    | ok s =>
      have hm : missingName m = false := by
        by_contra hc
        obtain ⟨e, he⟩ := (single_model_error_iff m).mpr (by simpa using hc)
        rw [h1] at he
        cases he
      cases h2 : convertModels ms with
      | error e2 =>
        obtain ⟨m', hmem, hmn⟩ := ih.mp ⟨e2, h2⟩
        constructor
        · intro _; exact ⟨m', by simp [hmem], hmn⟩
        · intro _; exact ⟨e2, rfl⟩
      | ok rest =>
        constructor
        · rintro ⟨e, he⟩
          cases he
        · rintro ⟨m', hmem, hmn⟩
          rcases List.mem_cons.mp hmem with h | h
          · subst h
            rw [hm] at hmn
            cases hmn
          · obtain ⟨e, he⟩ := ih.mpr ⟨m', h, hmn⟩
            rw [h2] at he
            cases he

/-- C2: conversion raises an error exactly when the semantic_models key is
absent, the model list is empty, or some model lacks a non-empty name; a
failing call produces no output at all. -/
theorem convert_errors_iff (d : Doc) :
    ((∃ e, convert_yaml_content d = Except.error e) ↔
      (d.semantic_models = none ∨ d.semantic_models = some ([] : List Model) ∨
        (∃ ms, d.semantic_models = some ms ∧ ∃ m ∈ ms, missingName m = true))) ∧
    (∀ e s, convert_yaml_content d = Except.error e → convert_yaml_content d ≠ Except.ok s) := by
  constructor
  · cases hd : d.semantic_models with
    | none => simp [convert_yaml_content, hd]
    | some ms =>
      by_cases hE : ms = []
      · subst hE
        simp [convert_yaml_content, hd]
      · simp only [convert_yaml_content, hd]
        rw [if_neg hE]
        cases h2 : convertModels ms with
        | error e =>
          have hR := (convertModels_error_iff ms).mp ⟨e, h2⟩
          constructor
          · intro _
            exact Or.inr (Or.inr ⟨ms, rfl, hR⟩)
          · intro _
            exact ⟨e, rfl⟩
        | ok outs =>
          constructor
          · rintro ⟨e, he⟩
            cases he
          · rintro (h | h | ⟨ms', hms', m, hmem, hmn⟩)
            · cases h
            · injection h with h'
              exact (hE h').elim
            · injection hms' with h'
              subst h'
              obtain ⟨e, he⟩ := (convertModels_error_iff ms).mpr ⟨m, hmem, hmn⟩
              rw [h2] at he
              cases he
  · intro e s he hs
    rw [he] at hs
    cases hs

/-- Witness for C2 at a document missing the semantic_models key. -/
theorem convert_errors_iff_witness :
    convert_yaml_content ⟨none⟩ = Except.error "No semantic_models found in YAML" ∧
    convert_yaml_content ⟨none⟩ ≠ Except.ok "" :=
  ⟨rfl, (convert_errors_iff ⟨none⟩).2 "No semantic_models found in YAML" "" rfl⟩

/-- The granularity lookup with upper-case default agrees with the spec's
granularity table. -/
theorem gran_mapped_eq (g : String) :
    (time_granularity_mapping.lookup g).getD (strUpper g) = granularityMappedSpec g := by
  rw [lookup_time_granularity_mapping]
  unfold granularityMappedSpec
  split_ifs <;> rfl

/-- Counterexample to C6 as stated: a time dimension whose `time_granularity`
is present but empty keeps the bare column name, not the claimed
`DATE_TRUNC` form built from the upper-cased granularity. -/
theorem time_dimension_empty_granularity_cex :
    dimensionExpr ⟨"d", none, none, some "time", some ⟨some ""⟩⟩ = "d" ∧
    dimensionExpr ⟨"d", none, none, some "time", some ⟨some ""⟩⟩ ≠
      "DATE_TRUNC(\x27\x27, d)" := by
  decide

/-- C6 (amended): a time dimension with uncustomised expr and a non-empty
granularity renders as DATE_TRUNC over the mapped granularity (fixed table,
unknown granularities upper-cased verbatim); the granularity defaults to day
when type_params is absent. -/
theorem time_dimension_expr_spec (d : Dimension) (ht : d.type = some "time")
    (he : d.expr.getD d.name = d.name) (hg : granularityOf d ≠ "") :
    dimensionExpr d =
      "DATE_TRUNC(\x27" ++ granularityMappedSpec (granularityOf d) ++ "\x27, " ++ d.name ++ ")" ∧
    (d.type_params = none → granularityOf d = "day") := by
  constructor
  · have hg2 : ((d.type_params.getD ⟨none⟩).time_granularity).getD "day" ≠ "" := by
      simpa [granularityOf] using hg
    simp only [dimensionExpr, ht, Option.getD_some]
    simp [he, hg2, gran_mapped_eq, granularityOf]
  · intro hnone
    simp [granularityOf, hnone]

/-- Witness for C6 at the spec's created_date example. -/
theorem time_dimension_expr_spec_witness :
    (⟨"created_date", none, none, some "time", none⟩ : Dimension).type = some "time" ∧
    granularityOf ⟨"created_date", none, none, some "time", none⟩ ≠ "" ∧
    dimensionExpr ⟨"created_date", none, none, some "time", none⟩ =
      "DATE_TRUNC(\x27DAY\x27, created_date)" :=
  ⟨rfl, by decide,
    (time_dimension_expr_spec ⟨"created_date", none, none, some "time", none⟩ rfl rfl
      (by decide)).1⟩

/-- Counterexample to C7 as stated: the first primary-typed entity carries an
(empty) expr, but the key falls back to the first entity instead of that
expr. -/
theorem primary_key_empty_expr_cex :
    primaryKeyOf [⟨"a", some "foreign", none⟩, ⟨"b", some "primary", some ""⟩] = "a" ∧
    findPrimary [⟨"a", some "foreign", none⟩, ⟨"b", some "primary", some ""⟩] = some "" ∧
    primaryKeyOf [⟨"a", some "foreign", none⟩, ⟨"b", some "primary", some ""⟩] ≠ "" := by
  decide

/-- The linear scan for a primary entity is `List.find?` mapped through the
expr/name default. -/
theorem findPrimary_eq_find (es : List Entity) :
    findPrimary es =
      (es.find? (fun e => e.type == some "primary")).map (fun e => e.expr.getD e.name) := by
  induction es with
  | nil => rfl
  | cons e es ih =>
    by_cases h : e.type = some "primary"
    · rw [List.find?_cons_of_pos _ (by simp [h])]
      simp [findPrimary, h]
    · rw [List.find?_cons_of_neg _ (by simp [h])]
      simp [findPrimary, h, ih]

/-- C7 (amended): the key is supplied by the first primary-typed entity's
expr/name unless that value is empty, in which case (as when no primary
exists) the first entity's expr/name is used, with the literal id for an
empty entity list; the claim's two examples hold. -/
theorem primary_key_follows_spec (entities : List Entity) :
    primaryKeyOf entities = primaryKeySpec entities ∧
    primaryKeyOf [⟨"a", some "foreign", none⟩, ⟨"b", some "primary", some "b_id"⟩] = "b_id" ∧
    primaryKeyOf ([] : List Entity) = "id" := by
  refine ⟨?_, by decide, by decide⟩
  unfold primaryKeyOf primaryKeySpec
  rw [findPrimary_eq_find]
  cases h : entities.find? (fun e => e.type == some "primary") with
  | none =>
    cases entities <;> simp [fallbackKey]
  | some e =>
    by_cases he : e.expr.getD e.name = ""
    · cases entities <;> simp [fallbackKey, he]
    · cases entities <;> simp [fallbackKey, he]

/-- Appending the empty string on the right is the identity. -/
theorem str_append_empty (s : String) : s ++ "" = s := by
  cases s with
  | mk d =>
    show String.mk (d ++ []) = String.mk d
    rw [List.append_nil]

/-- A relationship entry renders as the spec describes. -/
theorem relDef_eq_spec (e : Entity) : relDef e = relDefSpec e := rfl

/-- The relationship loop is the filter-then-render of the spec. -/
theorem relsList_eq_spec (es : List Entity) :
    relsList es = (es.filter isForeignSpec).map relDefSpec := by
  induction es with
  | nil => rfl
  | cons e es ih =>
    by_cases h : e.type = some "foreign"
    · simp only [relsList, if_pos h, List.filter_cons]
      simp [isForeignSpec, h, ih, relDef_eq_spec]
    · simp only [relsList, if_neg h, List.filter_cons]
      simp [isForeignSpec, h, ih]

/-- No foreign entity means no relationship entries. -/
theorem relsList_nil_of_no_foreign (es : List Entity)
    (h : ∀ e ∈ es, e.type ≠ some "foreign") : relsList es = [] := by
  induction es with
  | nil => rfl
  | cons e es ih =>
    have he : e.type ≠ some "foreign" := h e (by simp)
    simp only [relsList, if_neg he]
    exact ih (fun x hx => h x (by simp [hx]))

/-- C8: the RELATIONSHIPS section holds exactly one entry per foreign-typed
entity, in order, named to_<entity> and referencing the lexically derived
target (with sentinel unknown); with no foreign entity the section is empty
and the statement carries no RELATIONSHIPS clause at all. -/
theorem relationships_follow_spec :
    (∀ entities : List Entity, _generate_relationships_section entities =
      String.intercalate ",\n" ((entities.filter isForeignSpec).map relDefSpec)) ∧
    (∀ (m : Model) (nm : String), m.name = some nm → nm ≠ "" →
      (∀ e ∈ m.entities, e.type ≠ some "foreign") →
      _generate_relationships_section m.entities = "" ∧
      _convert_single_model m = Except.ok (renderTemplate nm (m.description.getD "")
        (_generate_tables_section nm (_extract_table_name (m.model.getD "")) m.entities)
        "" (_generate_facts_section nm m.measures)
        (_generate_dimensions_section nm m.dimensions)
        (_generate_metrics_section nm m.measures))) ∧
    (∀ nm d t f dm mt : String, renderTemplate nm d t "" f dm mt =
      "CREATE SEMANTIC VIEW " ++ nm ++
        (if d ≠ "" then "\n  COMMENT = \x27" ++
          String.mk (replaceAll "\x27".data "\x27\x27".data d.data) ++ "\x27" else "") ++
        "\n  TABLES (\n" ++ indent4 t ++ "\n  )" ++
        (if f ≠ "" then "\n  FACTS (\n" ++ indent4 f ++ "\n  )" else "") ++
        (if dm ≠ "" then "\n  DIMENSIONS (\n" ++ indent4 dm ++ "\n  )" else "") ++
        (if mt ≠ "" then "\n  METRICS (\n" ++ indent4 mt ++ "\n  )" else "") ++ ";") := by
  refine ⟨?_, ?_, ?_⟩
  · intro entities
    simp only [_generate_relationships_section, relsList_eq_spec]
  · intro m nm hnm hne hnf
    have hrel : _generate_relationships_section m.entities = "" := by
      simp only [_generate_relationships_section, relsList_nil_of_no_foreign m.entities hnf]
      rfl
    refine ⟨hrel, ?_⟩
    simp only [_convert_single_model, hnm]
    rw [if_neg hne, hrel]
  · intro nm d t f dm mt
    simp only [renderTemplate]
    rw [if_neg (show ¬(("" : String) ≠ "") by simp), str_append_empty]

/-- Witness for C8 at a model with no foreign entities. -/
theorem relationships_follow_spec_witness :
    modelA.name = some "a" ∧ ("a" : String) ≠ "" ∧
    (∀ e ∈ modelA.entities, e.type ≠ some "foreign") ∧
    _generate_relationships_section modelA.entities = "" ∧
    _convert_single_model modelA = Except.ok (renderTemplate "a" (modelA.description.getD "")
      (_generate_tables_section "a" (_extract_table_name (modelA.model.getD "")) modelA.entities)
      "" (_generate_facts_section "a" modelA.measures)
      (_generate_dimensions_section "a" modelA.dimensions)
      (_generate_metrics_section "a" modelA.measures)) :=
  ⟨rfl, by decide, by decide,
   (relationships_follow_spec.2.1 modelA "a" rfl (by decide) (by decide)).1,
   (relationships_follow_spec.2.1 modelA "a" rfl (by decide) (by decide)).2⟩

/-- takeWhile over a block of satisfying elements stops exactly at the first
failing element. -/
theorem takeWhile_all_append {α : Type} (p : α → Bool) {l : List α}
    (hl : ∀ a ∈ l, p a = true) {c : α} (hc : p c = false) (t : List α) :
    (l ++ c :: t).takeWhile p = l := by
  induction l with
  | nil => simp [List.takeWhile_cons, hc]
  | cons a l ih =>
    have ha : p a = true := hl a (by simp)
    simp only [List.cons_append, List.takeWhile_cons, ha, if_true]
    rw [ih (fun x hx => hl x (by simp [hx]))]

/-- dropWhile over a block of satisfying elements drops exactly that block. -/
theorem dropWhile_all_append {α : Type} (p : α → Bool) {l : List α}
    (hl : ∀ a ∈ l, p a = true) {c : α} (hc : p c = false) (t : List α) :
    (l ++ c :: t).dropWhile p = c :: t := by
  induction l with
  | nil => simp [List.dropWhile_cons, hc]
  | cons a l ih =>
    have ha : p a = true := hl a (by simp)
    simp only [List.cons_append, List.dropWhile_cons, ha, if_true]
    exact ih (fun x hx => hl x (by simp [hx]))

/-- Counterexample to C9 as stated: an input that starts with `ref(` but
does not match the `ref('identifier')` pattern (no closing parenthesis) is
still resolved by the regex search, not by quote stripping. -/
theorem extract_table_name_cex :
    _extract_table_name "ref(\x27orders\x27" = "orders" ∧
    matchesRefPattern "ref(\x27orders\x27" = false ∧
    ("ref(\x27orders\x27" : String) ≠ "" ∧
    stripQuotes "ref(\x27orders\x27" ≠ "orders" := by
  decide

/-- C9 (amended): a well-formed `ref('identifier')` (either quote style)
resolves to the quoted identifier; the empty reference resolves to the
unknown_table sentinel; and whenever the regex search fails (in particular
for any input without the `ref(` prefix) the result is the input with
surrounding quotes stripped. -/
theorem extract_table_name_spec (inner : String) (q : Char)
    (hq : isQuoteChar q = true) (hne : inner ≠ "")
    (hfree : inner.data.all (fun c => !isQuoteChar c) = true) :
    _extract_table_name (String.mk ('r' :: 'e' :: 'f' :: '(' :: q ::
        (inner.data ++ q :: [')']))) = inner ∧
    _extract_table_name "" = "unknown_table" ∧
    (∀ t : String, t ≠ "" → strStarts t "ref(" = false →
      _extract_table_name t = stripQuotes t) ∧
    (∀ t : String, t ≠ "" → refSearch t.data = none →
      _extract_table_name t = stripQuotes t) := by
  refine ⟨?_, rfl, ?_, ?_⟩
  · have hdata : inner.data ≠ [] := by
      intro h
      apply hne
      cases inner with
      | mk l => simp at h; simp [h]
    have h0 : String.mk ('r' :: 'e' :: 'f' :: '(' :: q :: (inner.data ++ q :: [')'])) ≠ "" := by
      intro h
      have h2 := congrArg String.data h
      simp at h2
    unfold _extract_table_name
    rw [if_neg h0]
    have h1 : strStarts (String.mk ('r' :: 'e' :: 'f' :: '(' :: q ::
        (inner.data ++ q :: [')']))) "ref(" = true := rfl
    rw [if_pos h1]
    have hrun : (inner.data ++ q :: [')']).takeWhile (fun c => !isQuoteChar c) = inner.data :=
      takeWhile_all_append _ (by
        intro a ha
        have := List.all_eq_true.mp hfree a ha
        simpa using this) (by simp [hq]) _
    have hafter : (inner.data ++ q :: [')']).dropWhile (fun c => !isQuoteChar c) = q :: [')'] :=
      dropWhile_all_append _ (by
        intro a ha
        have := List.all_eq_true.mp hfree a ha
        simpa using this) (by simp [hq]) _
    have hmatch : refMatchAt ('r' :: 'e' :: 'f' :: '(' :: q :: (inner.data ++ q :: [')'])) =
        some inner.data := by
      simp only [refMatchAt, hq, if_true, hrun, hafter]
      simp [hdata]
    have hsearch : refSearch ('r' :: 'e' :: 'f' :: '(' :: q :: (inner.data ++ q :: [')'])) =
        some inner.data := by
      simp only [refSearch, hmatch]
    simp only [hsearch]
  · intro t ht hs
    unfold _extract_table_name
    rw [if_neg ht, if_neg (by simp [hs])]
  · intro t ht hs
    unfold _extract_table_name
    rw [if_neg ht]
    by_cases h : strStarts t "ref(" = true
    · rw [if_pos h, hs]
    · rw [if_neg (by simpa using h)]

/-- Witness for C9 at the spec's own examples. -/
theorem extract_table_name_spec_witness :
    isQuoteChar '\x27' = true ∧ ("orders" : String) ≠ "" ∧
    "orders".data.all (fun c => !isQuoteChar c) = true ∧
    _extract_table_name "ref(\x27orders\x27)" = "orders" ∧
    _extract_table_name "" = "unknown_table" ∧
    _extract_table_name "\x27orders\x27" = stripQuotes "\x27orders\x27" :=
  ⟨by decide, by decide, by decide,
   (extract_table_name_spec "orders" '\x27' (by decide) (by decide) (by decide)).1,
   (extract_table_name_spec "orders" '\x27' (by decide) (by decide) (by decide)).2.1,
   (extract_table_name_spec "orders" '\x27' (by decide) (by decide) (by decide)).2.2.1
     "\x27orders\x27" (by decide) (by decide)⟩

/-- A successful keyword match consumes at least one character. -/
theorem matchKw_some_length (kw : List Char) (b : Bool) (c : Char) (cs rest : List Char)
    (h : matchKw kw b (c :: cs) = some rest) : rest.length < cs.length + 1 := by
  unfold matchKw at h
  by_cases hws : (c :: cs).takeWhile isWsChar = []
  · simp [hws] at h
  · simp only [hws, if_false] at h
    have hc : isWsChar c = true := by
      by_contra hc
      simp [List.takeWhile_cons, hc] at hws
    by_cases hst : (stripCI kw ((c :: cs).dropWhile isWsChar)).isSome
    · simp only [hst, if_true] at h
      have e1 : (c :: cs).dropWhile isWsChar = cs.dropWhile isWsChar := by
        simp [List.dropWhile_cons, hc]
      have l1 : (cs.dropWhile isWsChar).length ≤ cs.length :=
        (List.dropWhile_sublist _).length_le
      have l2 : (((c :: cs).dropWhile isWsChar).drop kw.length).length ≤ cs.length := by
        rw [e1, List.length_drop]
        omega
      have l3 : ((((c :: cs).dropWhile isWsChar).drop kw.length).dropWhile isWsChar).length ≤
          (((c :: cs).dropWhile isWsChar).drop kw.length).length :=
        (List.dropWhile_sublist _).length_le
      split at h
      · cases h
      · have h2 := Option.some.inj h
        subst h2
        omega
    · simp [hst] at h

/-- Unfolding of `subKw` at a non-matching head. -/
theorem subKw_cons_none (kw repl : List Char) (b : Bool) (c : Char) (cs : List Char)
    (h : matchKw kw b (c :: cs) = none) :
    subKw kw repl b (c :: cs) = c :: subKw kw repl b cs := by
  rw [subKw]
  split
  · rename_i rest h2
    rw [h] at h2
    cases h2
  · rfl

/-- Unfolding of `subKw` at a matching head. -/
theorem subKw_cons_some (kw repl : List Char) (b : Bool) (c : Char) (cs rest : List Char)
    (h : matchKw kw b (c :: cs) = some rest) :
    subKw kw repl b (c :: cs) = repl ++ subKw kw repl b rest := by
  rw [subKw]
  split
  · rename_i rest2 h2
    rw [h] at h2
    injection h2 with h3
    rw [h3]
  · rename_i h2
    rw [h] at h2
    cases h2

/-- A pattern `\s+kw...` never matches at a non-whitespace character. -/
theorem matchKw_nonws (kw : List Char) (b : Bool) (c : Char) (cs : List Char)
    (hc : isWsChar c = false) : matchKw kw b (c :: cs) = none := by
  simp [matchKw, List.takeWhile_cons, hc]

/-- `subKw` copies a whitespace-free block unchanged. -/
theorem subKw_skip_run (kw repl : List Char) (b : Bool) (l : List Char)
    (hl : ∀ c ∈ l, isWsChar c = false) (rest : List Char) :
    subKw kw repl b (l ++ rest) = l ++ subKw kw repl b rest := by
  induction l with
  | nil => rfl
  | cons c l ih =>
    calc subKw kw repl b ((c :: l) ++ rest)
        = c :: subKw kw repl b (l ++ rest) :=
          subKw_cons_none kw repl b c (l ++ rest) (matchKw_nonws _ _ _ _ (hl c (by simp)))
      _ = c :: (l ++ subKw kw repl b rest) := by
          rw [ih (fun x hx => hl x (by simp [hx]))]
      _ = (c :: l) ++ subKw kw repl b rest := rfl

/-- `subKw` copies a whitespace run unchanged when the next character does
not open the keyword. -/
theorem subKw_skip_ws_block (kw repl : List Char) (b : Bool) (ws : List Char)
    (hws : ∀ c ∈ ws, isWsChar c = true) (c2 : Char) (hc2 : isWsChar c2 = false)
    (rest : List Char) (hstrip : stripCI kw (c2 :: rest) = none) :
    subKw kw repl b (ws ++ c2 :: rest) = ws ++ subKw kw repl b (c2 :: rest) := by
  induction ws with
  | nil => rfl
  | cons w ws ih =>
    have hm : matchKw kw b (w :: (ws ++ c2 :: rest)) = none := by
      unfold matchKw
      rw [show w :: (ws ++ c2 :: rest) = (w :: ws) ++ c2 :: rest from rfl]
      rw [takeWhile_all_append _ hws hc2, dropWhile_all_append _ hws hc2]
      simp [hstrip, hws w (by simp)]
    calc subKw kw repl b ((w :: ws) ++ c2 :: rest)
        = w :: subKw kw repl b (ws ++ c2 :: rest) :=
          subKw_cons_none kw repl b w (ws ++ c2 :: rest) hm
      _ = w :: (ws ++ subKw kw repl b (c2 :: rest)) := by
          rw [ih (fun x hx => hws x (by simp [hx]))]
      _ = (w :: ws) ++ subKw kw repl b (c2 :: rest) := rfl

/-- `subKw` agrees with its fuel-driven twin whenever the fuel covers the
input length. -/
theorem subKw_eq_fuel (kw repl : List Char) (b : Bool) :
    ∀ (fuel : Nat) (l : List Char), l.length ≤ fuel →
      subKw kw repl b l = subKwE kw repl b fuel l := by
  intro fuel
  induction fuel with
  | zero =>
    intro l hl
    have : l = [] := List.eq_nil_of_length_eq_zero (Nat.le_zero.mp hl)
    subst this
    rw [subKw]
    rfl
  | succ fuel ih =>
    intro l hl
    cases l with
    | nil =>
      rw [subKw]
      rfl
    | cons c cs =>
      cases hm : matchKw kw b (c :: cs) with
      | some rest =>
        rw [subKw_cons_some _ _ _ _ _ _ hm]
        have hrest : rest.length ≤ fuel := by
          have h2 := matchKw_some_length kw b c cs rest hm
          simp only [List.length_cons] at hl
          omega
        rw [ih rest hrest]
        simp only [subKwE, hm]
      | none =>
        rw [subKw_cons_none _ _ _ _ _ hm]
        have hcs : cs.length ≤ fuel := by
          simp only [List.length_cons] at hl
          omega
        rw [ih cs hcs]
        simp only [subKwE, hm]

/-- Evaluation form of `subKw` for concrete inputs. -/
theorem subKw_eval (kw repl : List Char) (b : Bool) (l : List Char) :
    subKw kw repl b l = subKwE kw repl b l.length l :=
  subKw_eq_fuel kw repl b l.length l (Nat.le_refl _)

/-- Replicated `a` blocks contain no whitespace. -/
theorem replicate_a_nonws (m : Nat) : ∀ c ∈ List.replicate m 'a', isWsChar c = false := by
  intro c hc
  rw [List.eq_of_mem_replicate hc]
  rfl

/-- First rewriting pass of `_wrap_long_expression` on the CASE family:
`\s+when\s+` becomes a new indented line. -/
theorem pass_when (m : Nat) :
    subKw "when".data "\n      WHEN ".data true
        ("case when aaaaaaaaaaaaaaaaaaaaaaaaaaaaaaaaa".data ++
          (List.replicate m 'a' ++ " then 1 else 2 end".data)) =
      "case\n      WHEN aaaaaaaaaaaaaaaaaaaaaaaaaaaaaaaaa".data ++
        (List.replicate m 'a' ++ " then 1 else 2 end".data) := by
  rw [show ("case when aaaaaaaaaaaaaaaaaaaaaaaaaaaaaaaaa".data ++
      (List.replicate m 'a' ++ " then 1 else 2 end".data)) =
    "case".data ++ (' ' :: 'w' :: 'h' :: 'e' :: 'n' :: ' ' ::
      ("aaaaaaaaaaaaaaaaaaaaaaaaaaaaaaaaa".data ++
        (List.replicate m 'a' ++ " then 1 else 2 end".data))) from rfl]
  rw [subKw_skip_run _ _ _ _ (by decide) _]
  have hm : matchKw "when".data true (' ' :: 'w' :: 'h' :: 'e' :: 'n' :: ' ' ::
      ("aaaaaaaaaaaaaaaaaaaaaaaaaaaaaaaaa".data ++
        (List.replicate m 'a' ++ " then 1 else 2 end".data))) =
      some ("aaaaaaaaaaaaaaaaaaaaaaaaaaaaaaaaa".data ++
        (List.replicate m 'a' ++ " then 1 else 2 end".data)) := rfl
  rw [subKw_cons_some _ _ _ _ _ _ hm]
  rw [subKw_skip_run _ _ _ _ (by decide) _]
  rw [subKw_skip_run _ _ _ _ (replicate_a_nonws m) _]
  rw [subKw_eval "when".data "\n      WHEN ".data true " then 1 else 2 end".data]
  rfl

/-- Second rewriting pass on the CASE family: `\s+then\s+` becomes ` THEN `
on the same line. -/
theorem pass_then (m : Nat) :
    subKw "then".data " THEN ".data true
        ("case\n      WHEN aaaaaaaaaaaaaaaaaaaaaaaaaaaaaaaaa".data ++
          (List.replicate m 'a' ++ " then 1 else 2 end".data)) =
      "case\n      WHEN aaaaaaaaaaaaaaaaaaaaaaaaaaaaaaaaa".data ++
        (List.replicate m 'a' ++ " THEN 1 else 2 end".data) := by
  rw [show ("case\n      WHEN aaaaaaaaaaaaaaaaaaaaaaaaaaaaaaaaa".data ++
      (List.replicate m 'a' ++ " then 1 else 2 end".data)) =
    "case".data ++ (['\n', ' ', ' ', ' ', ' ', ' ', ' '] ++ 'W' ::
      ("HEN".data ++ ([' '] ++ 'a' ::
        ("aaaaaaaaaaaaaaaaaaaaaaaaaaaaaaaa".data ++
          (List.replicate m 'a' ++ " then 1 else 2 end".data))))) from rfl]
  rw [subKw_skip_run _ _ _ _ (by decide) _]
  rw [subKw_skip_ws_block _ _ _ _ (by decide) 'W' (by decide) _ (by rfl)]
  rw [show ('W' :: ("HEN".data ++ ([' '] ++ 'a' ::
      ("aaaaaaaaaaaaaaaaaaaaaaaaaaaaaaaa".data ++
        (List.replicate m 'a' ++ " then 1 else 2 end".data))))) =
    "WHEN".data ++ ([' '] ++ 'a' ::
      ("aaaaaaaaaaaaaaaaaaaaaaaaaaaaaaaa".data ++
        (List.replicate m 'a' ++ " then 1 else 2 end".data))) from rfl]
  rw [subKw_skip_run _ _ _ _ (by decide) _]
  rw [subKw_skip_ws_block _ _ _ _ (by decide) 'a' (by decide) _ (by rfl)]
  rw [show ('a' :: ("aaaaaaaaaaaaaaaaaaaaaaaaaaaaaaaa".data ++
      (List.replicate m 'a' ++ " then 1 else 2 end".data))) =
    "aaaaaaaaaaaaaaaaaaaaaaaaaaaaaaaaa".data ++
      (List.replicate m 'a' ++ " then 1 else 2 end".data) from rfl]
  rw [subKw_skip_run _ _ _ _ (by decide) _]
  rw [subKw_skip_run _ _ _ _ (replicate_a_nonws m) _]
  rw [subKw_eval "then".data " THEN ".data true " then 1 else 2 end".data]
  rfl

/-- Third rewriting pass on the CASE family: `\s+else\s+` becomes a new
indented line. -/
theorem pass_else (m : Nat) :
    subKw "else".data "\n      ELSE ".data true
        ("case\n      WHEN aaaaaaaaaaaaaaaaaaaaaaaaaaaaaaaaa".data ++
          (List.replicate m 'a' ++ " THEN 1 else 2 end".data)) =
      "case\n      WHEN aaaaaaaaaaaaaaaaaaaaaaaaaaaaaaaaa".data ++
        (List.replicate m 'a' ++ " THEN 1\n      ELSE 2 end".data) := by
  rw [show ("case\n      WHEN aaaaaaaaaaaaaaaaaaaaaaaaaaaaaaaaa".data ++
      (List.replicate m 'a' ++ " THEN 1 else 2 end".data)) =
    "case".data ++ (['\n', ' ', ' ', ' ', ' ', ' ', ' '] ++ 'W' ::
      ("HEN".data ++ ([' '] ++ 'a' ::
        ("aaaaaaaaaaaaaaaaaaaaaaaaaaaaaaaa".data ++
          (List.replicate m 'a' ++ " THEN 1 else 2 end".data))))) from rfl]
  rw [subKw_skip_run _ _ _ _ (by decide) _]
  rw [subKw_skip_ws_block _ _ _ _ (by decide) 'W' (by decide) _ (by rfl)]
  rw [show ('W' :: ("HEN".data ++ ([' '] ++ 'a' ::
      ("aaaaaaaaaaaaaaaaaaaaaaaaaaaaaaaa".data ++
        (List.replicate m 'a' ++ " THEN 1 else 2 end".data))))) =
    "WHEN".data ++ ([' '] ++ 'a' ::
      ("aaaaaaaaaaaaaaaaaaaaaaaaaaaaaaaa".data ++
        (List.replicate m 'a' ++ " THEN 1 else 2 end".data))) from rfl]
  rw [subKw_skip_run _ _ _ _ (by decide) _]
  rw [subKw_skip_ws_block _ _ _ _ (by decide) 'a' (by decide) _ (by rfl)]
  rw [show ('a' :: ("aaaaaaaaaaaaaaaaaaaaaaaaaaaaaaaa".data ++
      (List.replicate m 'a' ++ " THEN 1 else 2 end".data))) =
    "aaaaaaaaaaaaaaaaaaaaaaaaaaaaaaaaa".data ++
      (List.replicate m 'a' ++ " THEN 1 else 2 end".data) from rfl]
  rw [subKw_skip_run _ _ _ _ (by decide) _]
  rw [subKw_skip_run _ _ _ _ (replicate_a_nonws m) _]
  rw [subKw_eval "else".data "\n      ELSE ".data true " THEN 1 else 2 end".data]
  rfl

/-- Fourth rewriting pass on the CASE family: `\s+end\s*` becomes a new
indented line. -/
theorem pass_end (m : Nat) :
    subKw "end".data "\n      END".data false
        ("case\n      WHEN aaaaaaaaaaaaaaaaaaaaaaaaaaaaaaaaa".data ++
          (List.replicate m 'a' ++ " THEN 1\n      ELSE 2 end".data)) =
      "case\n      WHEN aaaaaaaaaaaaaaaaaaaaaaaaaaaaaaaaa".data ++
        (List.replicate m 'a' ++ " THEN 1\n      ELSE 2\n      END".data) := by
  rw [show ("case\n      WHEN aaaaaaaaaaaaaaaaaaaaaaaaaaaaaaaaa".data ++
      (List.replicate m 'a' ++ " THEN 1\n      ELSE 2 end".data)) =
    "case".data ++ (['\n', ' ', ' ', ' ', ' ', ' ', ' '] ++ 'W' ::
      ("HEN".data ++ ([' '] ++ 'a' ::
        ("aaaaaaaaaaaaaaaaaaaaaaaaaaaaaaaa".data ++
          (List.replicate m 'a' ++ " THEN 1\n      ELSE 2 end".data))))) from rfl]
  rw [subKw_skip_run _ _ _ _ (by decide) _]
  rw [subKw_skip_ws_block _ _ _ _ (by decide) 'W' (by decide) _ (by rfl)]
  rw [show ('W' :: ("HEN".data ++ ([' '] ++ 'a' ::
      ("aaaaaaaaaaaaaaaaaaaaaaaaaaaaaaaa".data ++
        (List.replicate m 'a' ++ " THEN 1\n      ELSE 2 end".data))))) =
    "WHEN".data ++ ([' '] ++ 'a' ::
      ("aaaaaaaaaaaaaaaaaaaaaaaaaaaaaaaa".data ++
        (List.replicate m 'a' ++ " THEN 1\n      ELSE 2 end".data))) from rfl]
  rw [subKw_skip_run _ _ _ _ (by decide) _]
  rw [subKw_skip_ws_block _ _ _ _ (by decide) 'a' (by decide) _ (by rfl)]
  rw [show ('a' :: ("aaaaaaaaaaaaaaaaaaaaaaaaaaaaaaaa".data ++
      (List.replicate m 'a' ++ " THEN 1\n      ELSE 2 end".data))) =
    "aaaaaaaaaaaaaaaaaaaaaaaaaaaaaaaaa".data ++
      (List.replicate m 'a' ++ " THEN 1\n      ELSE 2 end".data) from rfl]
  rw [subKw_skip_run _ _ _ _ (by decide) _]
  rw [subKw_skip_run _ _ _ _ (replicate_a_nonws m) _]
  rw [subKw_eval "end".data "\n      END".data false " THEN 1\n      ELSE 2 end".data]
  rfl

/-- The complete wrapping of the CASE family: WHEN, ELSE and END each open a
new indented line while THEN stays inline with single spaces. -/
theorem wrap_caseExprFam (m : Nat) :
    _wrap_long_expression (caseExprFam m) =
      String.mk ("    case\n      WHEN aaaaaaaaaaaaaaaaaaaaaaaaaaaaaaaaa".data ++
        (List.replicate m 'a' ++ " THEN 1\n      ELSE 2\n      END".data)) := by
  have hcond : hasSubstr "case ".data (strLower (caseExprFam m)).data = true := rfl
  simp only [_wrap_long_expression]
  rw [if_pos hcond]
  rw [show (caseExprFam m).data =
    "case when aaaaaaaaaaaaaaaaaaaaaaaaaaaaaaaaa".data ++
      (List.replicate m 'a' ++ " then 1 else 2 end".data) from rfl]
  rw [pass_when m, pass_then m, pass_else m, pass_end m]
  rfl

/-- Counterexample to C10 as stated: in a wrapped long CASE expression the
THEN keyword is preceded by a single space, not by a newline with
indentation. -/
theorem wrap_then_inline_cex :
    _wrap_long_expression (caseExprFam 15) =
      "    case\n      WHEN aaaaaaaaaaaaaaaaaaaaaaaaaaaaaaaaaaaaaaaaaaaaaaaa THEN 1\n      ELSE 2\n      END" ∧
    hasSubstr " THEN ".data (_wrap_long_expression (caseExprFam 15)).data = true ∧
    hasSubstr "\n      THEN".data (_wrap_long_expression (caseExprFam 15)).data = false ∧
    60 < (caseExprFam 15).length := by
  have h := wrap_caseExprFam 15
  refine ⟨?_, ?_, ?_, by decide⟩
  · rw [h]
    rfl
  · rw [h]
    decide
  · rw [h]
    decide

/-- C10 (amended): dimension expressions of at most 60 characters render
inline; longer non-CASE expressions get a single indentation level; and in a
long CASE expression WHEN, ELSE and END are moved to new indented upper-case
lines while THEN is upper-cased in place between single spaces. -/
theorem dimension_wrap_spec :
    (∀ (t : String) (d : Dimension), (dimensionExpr d).length ≤ 60 →
      dimensionDef t d =
        (if d.description.getD "" ≠ "" then
          t ++ "." ++ d.name ++ " AS " ++ dimensionExpr d ++
            "\n  COMMENT \x27" ++ d.description.getD "" ++ "\x27"
         else t ++ "." ++ d.name ++ " AS " ++ dimensionExpr d)) ∧
    (∀ e : String, hasSubstr "case ".data (strLower e).data = false →
      _wrap_long_expression e = "    " ++ e) ∧
    (∀ (t nm : String) (m : Nat),
      dimensionDef t ⟨nm, some (caseExprFam m), none, none, none⟩ =
        t ++ "." ++ nm ++ " AS (\n" ++
          ("    case\n      WHEN aaaaaaaaaaaaaaaaaaaaaaaaaaaaaaaaa" ++
            String.mk (List.replicate m 'a') ++ " THEN 1\n      ELSE 2\n      END") ++
          "\n)") := by
  refine ⟨?_, ?_, ?_⟩
  · intro t d h
    simp only [dimensionDef]
    rw [if_neg (by omega : ¬ 60 < (dimensionExpr d).length)]
  · intro e h
    unfold _wrap_long_expression
    rw [if_neg (by simp [h])]
  · intro t nm m
    have he : dimensionExpr ⟨nm, some (caseExprFam m), none, none, none⟩ = caseExprFam m := by
      simp [dimensionExpr]
    simp only [dimensionDef]
    rw [he]
    rw [if_neg (show ¬((none : Option String).getD "" ≠ "") by simp)]
    rw [if_pos (show 60 < (caseExprFam m).length by simp [caseExprFam, String.length])]
    rw [wrap_caseExprFam m]
    rfl

/-- Witness for C10: a short inline dimension, a long non-CASE expression,
and the CASE family at a concrete size. -/
theorem dimension_wrap_spec_witness :
    (dimensionExpr ⟨"d", some "x", none, none, none⟩).length ≤ 60 ∧
    dimensionDef "t" ⟨"d", some "x", none, none, none⟩ = "t.d AS x" ∧
    hasSubstr "case ".data (strLower "abc").data = false ∧
    _wrap_long_expression "abc" = "    abc" ∧
    dimensionDef "t" ⟨"d", some (caseExprFam 0), none, none, none⟩ =
      "t.d AS (\n    case\n      WHEN aaaaaaaaaaaaaaaaaaaaaaaaaaaaaaaaa THEN 1\n      ELSE 2\n      END\n)" := by
  refine ⟨by decide, ?_, by decide, ?_, ?_⟩
  · have h := dimension_wrap_spec.1 "t" ⟨"d", some "x", none, none, none⟩ (by decide)
    rw [h]
    rfl
  · have h := dimension_wrap_spec.2.1 "abc" (by decide)
    rw [h]
    rfl
  · have h := dimension_wrap_spec.2.2 "t" "d" 0
    rw [h]
    rfl
